import Mathlib

/-
Verification development for the flow-dps repository core:
  - src/ledger/trie/trie.go   (Trie: Insert, read, UnsafeRead, Leaves, RootHash)
  - src/engine/engine.go      (Engine: Component, Run, Stop)
  - src/cmd/flow-dps-live/main.go (run: configuration checks, component lifecycle)

Modelling conventions:
  - Go byte slices are `List Nat` (each entry a byte value); a ledger.Path is a
    32-byte list, its bits addressed MSB-first exactly as flow-go's
    bitutils.Bit does.
  - Go uint8 arithmetic on depths and counts is Nat arithmetic taken `% 256`
    at every point where the Go code stores or computes a uint8.
  - The external hash functions (ledger.ComputeCompactValue, blake3.Sum256,
    ledger.GetDefaultHashForHeight, the ledger combine function) live outside
    this repository; they are abstracted into a `HashModel` parameter, and the
    payload store (dps.Store) is a partial map from hash keys to payloads.
  - trie.go mutates a pointer structure in place, with a `previous` edge
    pointer that can alias arbitrary earlier edges.  Insert is therefore
    embedded against an explicit heap: node objects in an address-indexed
    list, and every Node-typed location (t.root, Extension.child,
    Branch.left/right) is a numbered slot holding an optional object address.
    The loop is driven by fuel; fuel exhaustion yields `none` and every
    theorem below only relies on runs that finish well within the fuel.
  - The node variant definitions (node.go) are not part of src/; the variants
    and their fields are modelled from the spec (section 3, "Node") and are
    fully determined by their uses in trie.go.
-/

set_option autoImplicit false

/-- Abstract 32-byte hash value (the model does not need its byte structure). -/
abbrev Hash := Nat

/-- A byte string (Go []byte); each entry is one byte. -/
abbrev Bytes := List Nat

/-- A ledger path: 32 bytes addressing a register, bits numbered MSB-first. -/
abbrev LPath := List Nat

/-- ledger.Payload, reduced to the byte value the trie code reads (payload.Value). -/
structure Payload where
  value : Bytes
deriving DecidableEq, Repr

/-- dps.Store, as the trie uses it: Retrieve(key) either yields a payload or errors.
A `none` result models the error (store miss) path. -/
def Store := Hash → Option Payload

/-- flow-go bitutils.Bit: bit `i` of byte string `b`, MSB-first within each byte. -/
def bitAt (b : Bytes) (i : Nat) : Nat :=
  (b.getD (i / 8) 0) / 2 ^ (7 - i % 8) % 2

/-- The common-bit counting loop of trie.go (Insert lines 131-138, read lines
280-287), unrolled over its iteration count: starting at bit `i`, compare up
to `len` further bits of `p` and `np`, stopping at the first mismatch. -/
def countCommonFrom (p np : Bytes) (i : Nat) : Nat → Nat
  | 0 => 0
  | len + 1 =>
    if bitAt p i == bitAt np i then countCommonFrom p np (i + 1) len + 1 else 0

/-- `for i := depth; i < bound; i++ { if mismatch break; common++ }` with uint8
`i`: the number of common bits of `p` and `np` on the index range [i, bound). -/
def countCommon (p np : Bytes) (i bound : Nat) : Nat :=
  countCommonFrom p np i (bound - i)

/-- The external hash functions used by trie.go, kept abstract.  `compactValue`
stands for ledger.ComputeCompactValue(hash.Hash(path), value, height),
`blake3Sum` for blake3.Sum256, `defaultHash` for
ledger.GetDefaultHashForHeight, and `combine`/`extHash` for the ledger
hash-combine operations used by the (out-of-src) node hash recomputation. -/
structure HashModel where
  compactValue : LPath → Bytes → Nat → Hash
  blake3Sum : Bytes → Hash
  defaultHash : Nat → Hash
  combine : Nat → Hash → Hash → Hash
  extHash : Bytes → Nat → Nat → Hash → Hash

/-- A trivial hash model used to instantiate witnesses. -/
def hm0 : HashModel :=
  ⟨fun _ _ _ => 0, fun _ => 0, fun _ => 0, fun _ _ _ => 0, fun _ _ _ _ => 0⟩

/-- The empty payload store (every lookup misses). -/
def store0 : Store := fun _ => none

/-- The all-zero 32-byte path. -/
def path0 : LPath := List.replicate 32 0

/-- Modelled from the spec: node.go (the Node variants) is not in src/.  Spec
section 3: a node is Branch (two children, cached hash, dirty flag),
Extension (full path prefix, bit count, one child, cached hash, dirty flag),
Leaf (compact hash and payload key) or Empty (absent subtree).  `empty`
stands for a nil Node edge in the Go code. -/
inductive NodeT where
  | empty : NodeT
  | leaf (hash : Hash) (payloadKey : Hash) : NodeT
  | ext (hash : Hash) (dirty : Bool) (path : Bytes) (count : Nat) (child : NodeT) : NodeT
  | branch (hash : Hash) (dirty : Bool) (left right : NodeT) : NodeT
deriving DecidableEq, Repr

/-- Trie.read (trie.go lines 264-309) over the reachable node tree: walk
branches by the path bit at the current depth, walk extensions only when the
common-bit count equals `uint8(len(node.path))`, and at a leaf retrieve from
the store keyed by the leaf node's hash (node.Hash(); modelled from the spec:
the Leaf's Hash method returns its precomputed compact hash). -/
def readT (store : Store) (p : LPath) : NodeT → Nat → Option Payload
  | .empty, _ => none
  | .branch _ _ l r, depth =>
    if bitAt p depth == 0 then readT store p l ((depth + 1) % 256)
    else readT store p r ((depth + 1) % 256)
  | .ext _ _ npath count child, depth =>
    let available := npath.length % 256
    let common := countCommon p npath depth ((depth + count) % 256)
    if available != common then none
    else readT store p child ((depth + count) % 256)
  | .leaf h _, _ => store h

/-- The leaf (hash, payload key) that the read walk of trie.go ends on, if it
ends on a leaf at all; `none` when the walk ends on an empty edge or a
mismatching extension. -/
def readLeafOf (p : LPath) : NodeT → Nat → Option (Hash × Hash)
  | .empty, _ => none
  | .branch _ _ l r, depth =>
    if bitAt p depth == 0 then readLeafOf p l ((depth + 1) % 256)
    else readLeafOf p r ((depth + 1) % 256)
  | .ext _ _ npath count child, depth =>
    let available := npath.length % 256
    let common := countCommon p npath depth ((depth + count) % 256)
    if available != common then none
    else readLeafOf p child ((depth + count) % 256)
  | .leaf h pk, _ => some (h, pk)

/-- Trie.Leaves (trie.go lines 229-252): the deque there is used
PushBack/PopBack, i.e. as a stack, giving a depth-first traversal that visits
a branch's right subtree before its left one. -/
def leavesT : NodeT → List (Hash × Hash)
  | .empty => []
  | .leaf h pk => [(h, pk)]
  | .ext _ _ _ _ child => leavesT child
  | .branch _ _ l r => leavesT r ++ leavesT l

/-- Modelled from the spec: node.go's Hash method is not in src/.  Spec
section 4.1: a clean node returns its cached hash; a dirty node recomputes by
combining its children's hashes with the ledger combine function parametrized
by the node's height (256 - depth); an empty subtree contributes the canonical
default hash for its height. -/
def nodeHashT (hm : HashModel) : Nat → NodeT → Hash
  | depth, .empty => hm.defaultHash (256 - depth % 256)
  | _, .leaf h _ => h
  | depth, .ext h d npath count child =>
    if d then hm.extHash npath count (256 - depth % 256)
      (nodeHashT hm ((depth + count) % 256) child)
    else h
  | depth, .branch h d l r =>
    if d then hm.combine (256 - depth % 256)
      (nodeHashT hm ((depth + 1) % 256) l) (nodeHashT hm ((depth + 1) % 256) r)
    else h

/-- Trie.RootHash (trie.go lines 71-77): the canonical default hash for height
256 (ledger.NodeMaxHeight) when the root edge is nil, otherwise the root
node's hash. -/
def rootHashT (hm : HashModel) : NodeT → Hash
  | .empty => hm.defaultHash 256
  | n => nodeHashT hm 0 n

/-- A trie as the read-side code observes it: the node tree reachable from the
root edge, plus the payload store. -/
structure TrieView where
  root : NodeT
  store : Store

/-- Trie.read at the trie level: walk from the root edge at depth 0. -/
def readTrieV (t : TrieView) (p : LPath) : Option Payload :=
  readT t.store p t.root 0

/-- Trie.UnsafeRead (trie.go lines 256-262): one read per input path, results
collected positionally. -/
def unsafeReadV (t : TrieView) (ps : List LPath) : List (Option Payload) :=
  ps.map (readTrieV t)

/-- NewEmptyTrie at the view level: nil root edge plus the given store. -/
def emptyView (store : Store) : TrieView := ⟨.empty, store⟩

/-- A heap node object.  The `child`, `left` and `right` fields hold slot
numbers: every Node-typed location of the Go program is one slot, and an
object's child fields name the slots holding its child edges. -/
inductive Obj where
  | leaf (hash : Hash) (payloadKey : Hash) : Obj
  | ext (hash : Hash) (dirty : Bool) (path : Bytes) (count : Nat) (child : Nat) : Obj
  | branch (hash : Hash) (dirty : Bool) (left right : Nat) : Obj
deriving DecidableEq, Repr

instance : Inhabited Obj := ⟨.leaf 0 0⟩

/-- The mutable pointer structure of the Go trie: `objs` is the store of node
objects (addresses are list indices), `slots` the store of Node-typed
locations (slot numbers are list indices), each holding an optional object
address.  Slot 0 is the trie's root edge (t.root). -/
structure Heap where
  objs : List Obj
  slots : List (Option Nat)
deriving DecidableEq, Repr

/-- A Trie value: its heap of nodes and its payload store (trie.go lines 33-37). -/
structure TrieState where
  heap : Heap
  store : Store

/-- NewEmptyTrie (trie.go lines 40-48): nil root edge, given payload store. -/
def emptyTrie (store : Store) : TrieState := ⟨⟨[], [none]⟩, store⟩

/-- The body of Trie.Insert's for-loop (trie.go lines 85-226), one constructor
case per `switch` arm, driven by fuel.  `prev`/`cur` are the Go `previous` and
`current` edge pointers as slot numbers; `none` for `prev` models the initial
nil *Node.  Faithfulness notes:
  - the nil case at depth < 255 allocates the Extension object and walks into
    its child edge but, exactly as the Go code does, never assigns the new
    extension to `*current`, so the parent edge keeps its nil value;
  - the Extension case compares the common-bit count against
    `available := uint8(len(node.path))` (the byte length of the stored path,
    32 for paths built by this code) while the counting loop runs over
    `node.count` bits, exactly as the Go code does;
  - `*previous = &branch` with a nil `previous` is a nil-pointer dereference
    in Go; it is modelled as the `none` outcome. -/
def insertLoop (hm : HashModel) (p : LPath) (v : Payload) :
    Nat → Heap → Option Nat → Nat → Nat → Option Heap
  | 0, _, _, _, _ => none
  | fuel + 1, hp, prev, cur, depth =>
    match hp.slots.getD cur none with
    | none =>
      -- case nil (lines 95-122)
      if depth == 255 then
        some ⟨hp.objs ++ [.leaf (hm.compactValue p v.value 256) (hm.blake3Sum v.value)],
              hp.slots.set cur (some hp.objs.length)⟩
      else
        insertLoop hm p v fuel
          ⟨hp.objs ++ [.ext 0 true p ((255 - depth) % 256) hp.slots.length],
           hp.slots ++ [none]⟩
          (some cur) hp.slots.length 255
    | some a =>
      match hp.objs.getD a default with
      | .ext x _ npath count child =>
        -- case *Extension (lines 127-199)
        let available := npath.length % 256
        let common := countCommon p npath depth ((depth + count) % 256)
        if common == available then
          insertLoop hm p v fuel
            ⟨hp.objs.set a (.ext x true npath count child), hp.slots⟩
            (some cur) child ((depth + available) % 256)
        else
          let sl := hp.slots.length
          let sr := hp.slots.length + 1
          let bAddr := hp.objs.length
          let h1 : Heap := ⟨hp.objs ++ [.branch 0 true sl sr], hp.slots ++ [none, none]⟩
          let oldChild := h1.slots.getD child none
          let diff := (available + 256 - common) % 256
          let forked : Heap × Option Nat :=
            if diff == 1 then (h1, oldChild)
            else (⟨h1.objs ++ [.ext 0 true npath ((diff + 255) % 256) h1.slots.length],
                   h1.slots ++ [oldChild]⟩, some h1.objs.length)
          let h2 : Heap := forked.1
          let other : Option Nat := forked.2
          match (if common == 0 then
                  match prev with
                  | none => none
                  | some pr => some (⟨h2.objs, h2.slots.set pr (some bAddr)⟩ : Heap)
                 else
                  some (⟨h2.objs.set a (.ext x true npath common child),
                         h2.slots.set child (some bAddr)⟩ : Heap)) with
          | none => none
          | some h3 =>
            if bitAt npath common == 0 then
              insertLoop hm p v fuel ⟨h3.objs, h3.slots.set sl other⟩ (some cur) sr depth
            else
              insertLoop hm p v fuel ⟨h3.objs, h3.slots.set sr other⟩ (some cur) sl depth
      | .branch x _ l r =>
        -- case *Branch (lines 204-215)
        if bitAt p depth == 0 then
          insertLoop hm p v fuel ⟨hp.objs.set a (.branch x true l r), hp.slots⟩
            prev l ((depth + 1) % 256)
        else
          insertLoop hm p v fuel ⟨hp.objs.set a (.branch x true l r), hp.slots⟩
            prev r ((depth + 1) % 256)
      | .leaf _ _ =>
        -- case *Leaf (lines 220-223)
        insertLoop hm p v fuel ⟨hp.objs, hp.slots.set cur none⟩ prev cur depth

/-- Fuel for the Insert loop; every run appearing in a theorem below finishes
in a handful of iterations. -/
def insertFuel : Nat := 600

/-- Trie.Insert at the trie level: run the loop from the root edge (slot 0) at
depth 0 with a nil `previous`.  The store is untouched (the Go Insert body
never references t.store). -/
def insertT (hm : HashModel) (t : TrieState) (p : LPath) (v : Payload) : Option TrieState :=
  match insertLoop hm p v insertFuel t.heap none 0 0 with
  | some hp => some ⟨hp, t.store⟩
  | none => none

/-- A sequence of Inserts, failing if any single insert fails. -/
def insertAll (hm : HashModel) : TrieState → List (LPath × Payload) → Option TrieState
  | t, [] => some t
  | t, (p, v) :: rest =>
    match insertT hm t p v with
    | some t1 => insertAll hm t1 rest
    | none => none

/-- Reconstruct the node tree reachable from an edge of the heap (fuel-driven;
`none` only on fuel exhaustion, which no theorem below relies on). -/
def reify (hp : Heap) : Nat → Option Nat → Option NodeT
  | 0, _ => none
  | _ + 1, none => some .empty
  | fuel + 1, some a =>
    match hp.objs.getD a default with
    | .leaf x pk => some (.leaf x pk)
    | .ext x d npath count child =>
      (reify hp fuel (hp.slots.getD child none)).map (NodeT.ext x d npath count)
    | .branch x d sl sr =>
      match reify hp fuel (hp.slots.getD sl none), reify hp fuel (hp.slots.getD sr none) with
      | some l, some r => some (.branch x d l r)
      | _, _ => none

/-- Fuel for tree reconstruction. -/
def reifyFuel : Nat := 600

/-- The node tree reachable from the trie's root edge. -/
def trieRoot (t : TrieState) : Option NodeT :=
  reify t.heap reifyFuel (t.heap.slots.getD 0 none)

/-- Trie.read on a heap-level trie: read over the reachable tree. -/
def trieRead (t : TrieState) (p : LPath) : Option Payload :=
  match trieRoot t with
  | some n => readT t.store p n 0
  | none => none

/-- Trie.Leaves on a heap-level trie. -/
def trieLeaves (t : TrieState) : List (Hash × Hash) :=
  match trieRoot t with
  | some n => leavesT n
  | none => []

/-- Trie.RootHash on a heap-level trie (trie.go lines 71-77): default hash for
height 256 when the root edge is nil, otherwise the root node's hash. -/
def trieRootHash (hm : HashModel) (t : TrieState) : Hash :=
  match t.heap.slots.getD 0 none with
  | none => hm.defaultHash 256
  | some _ =>
    match trieRoot t with
    | some n => nodeHashT hm 0 n
    | none => 0

/-- Outcome of index.Reader.First() in run (main.go lines 157-162): a height,
badger.ErrKeyNotFound (empty index), or any other error. -/
inductive FirstOutcome where
  | ok (h : Nat) : FirstOutcome
  | keyNotFound : FirstOutcome
  | failed : FirstOutcome
deriving DecidableEq, Repr

/-- The command-line flags of flow-dps-live that the modelled control flow
branches on (main.go lines 75-105). -/
structure RunConfig where
  checkpoint : String
  metrics : String
deriving DecidableEq, Repr

/-- The outcomes of the fallible external calls made by run (main.go), one
field per call site, in source order. -/
structure RunEnv where
  parseLevelOk : Bool
  openIndexOk : Bool
  openProtocolOk : Bool
  first : FirstOutcome
  seedOk : Bool
  keyGenOk : Bool
  parseAddrOk : Bool
  parsePortOk : Bool
  decodeKeyOk : Bool
  newFollowerOk : Bool
  openSnapshotOk : Bool
  initProtocolOk : Bool
  catchupOk : Bool
  gcloudOk : Bool
  newExecutionOk : Bool
  newConsensusOk : Bool
  openCheckpointOk : Bool
  listenOk : Bool
deriving DecidableEq, Repr

/-- What a run of flow-dps-live did: its exit code (main.go returns `failure`=1
or `success`=0, and main passes it to os.Exit), whether the indexing FSM was
ever launched (the `go mapper.Run(...)` call, main.go line 450), the order in
which the components were created and launched (lines 396-452), and the order
in which their stop routines were invoked (lines 477-480). -/
structure RunResult where
  exit : Nat
  indexingStarted : Bool
  launches : List String
  stops : List String
deriving DecidableEq, Repr

/-- An early `return failure` of run: exit code 1 before any component ran. -/
def failRes : RunResult := ⟨1, false, [], []⟩

/-- The control flow of run (main.go lines 68-483): each fallible step in
source order returns failure (exit code 1) on error; the empty-index check
(lines 157-166) requires a checkpoint flag when Reader.First() reports
ErrKeyNotFound; once all initialization succeeds the four components are
launched (follower, mapper, api, metrics), run waits for a signal or a
finished/failed component, and then invokes the four stop routines in the
fixed source order api, follower, mapper, metrics and returns success. -/
def runLive (cfg : RunConfig) (env : RunEnv) : RunResult :=
  if !env.parseLevelOk then failRes
  else if !env.openIndexOk then failRes
  else if !env.openProtocolOk then failRes
  else if env.first == .failed then failRes
  else if (env.first == .keyNotFound) && (cfg.checkpoint == "") then failRes
  else if !env.seedOk then failRes
  else if !env.keyGenOk then failRes
  else if !env.parseAddrOk then failRes
  else if !env.parsePortOk then failRes
  else if !env.decodeKeyOk then failRes
  else if !env.newFollowerOk then failRes
  else if !env.openSnapshotOk then failRes
  else if !env.initProtocolOk then failRes
  else if !env.catchupOk then failRes
  else if !env.gcloudOk then failRes
  else if !env.newExecutionOk then failRes
  else if !env.newConsensusOk then failRes
  else if (env.first == .keyNotFound) && !env.openCheckpointOk then failRes
  else if (env.first != .keyNotFound) && (cfg.checkpoint != "") && !env.openCheckpointOk then failRes
  else if !env.listenOk then failRes
  else
    { exit := 0
      indexingStarted := true
      launches := ["follower", "mapper", "api", "metrics"]
      stops := ["api", "follower", "mapper", "metrics"] }

/-- Engine.Stop (engine.go lines 90-95): `for i := len(components)-1; i >= 0;
i-- { components[i].Stop() }`, unrolled over the loop counter. -/
def engineStopFrom (cs : List String) : Nat → List String
  | 0 => []
  | i + 1 => cs.getD i default :: engineStopFrom cs i

/-- The order in which Engine.Stop invokes the stop routines of an engine whose
components were registered in the order `cs` (Engine.Component appends,
engine.go lines 44-54). -/
def engineStopOrder (cs : List String) : List String :=
  engineStopFrom cs cs.length

/-- A config with no checkpoint flag, used for the configuration-error claims. -/
def cfgNoCheckpoint : RunConfig := ⟨"", ""⟩

/-- A config with a checkpoint flag set. -/
def cfgWithCheckpoint : RunConfig := ⟨"root.checkpoint", ""⟩

/-- An environment in which every external call succeeds and the index database
is empty (Reader.First() reports ErrKeyNotFound). -/
def envEmptyIndex : RunEnv :=
  ⟨true, true, true, .keyNotFound, true, true, true, true, true, true, true, true,
   true, true, true, true, true, true⟩

/-- An environment in which every external call succeeds and the index database
already has a first height. -/
def envAllOk : RunEnv :=
  ⟨true, true, true, .ok 7, true, true, true, true, true, true, true, true,
   true, true, true, true, true, true⟩

/-- Pairwise-distinct paths in a list of (path, payload) pairs. -/
def distinctPaths (l : List (LPath × Payload)) : Prop :=
  l.Pairwise (fun a b => a.1 ≠ b.1)

instance (l : List (LPath × Payload)) : Decidable (distinctPaths l) := by
  unfold distinctPaths
  infer_instance

/-- The relation between the object stores before and after one Insert of
(p, v): objects are only added, and every leaf object of the new store is
either a leaf object the old store already held at the same address or a new
leaf carrying exactly the compact hash and the blake3 content hash of the
inserted payload. -/
def leafProvenance (hm : HashModel) (p : LPath) (v : Payload) (A B : List Obj) : Prop :=
  A.length ≤ B.length ∧
  ∀ j x pk, j < B.length → B.getD j default = .leaf x pk →
    (j < A.length ∧ A.getD j default = .leaf x pk) ∨
    (x = hm.compactValue p v.value 256 ∧ pk = hm.blake3Sum v.value)

/-- Fixture for the Extension-case claims: a well-formed one-leaf trie as the
intended insertion code would produce it, with a root Extension consuming all
255 bits of the all-zero path and a Leaf child.  Object 0 is the extension
(child edge = slot 1), object 1 the leaf. -/
def extHeap : Heap := ⟨[.ext 0 false path0 255 1, .leaf 7 8], [some 0, some 1]⟩

/-- The fixture trie built on `extHeap`. -/
def extTrie : TrieState := ⟨extHeap, store0⟩

/-- A store holding a payload under key 8 only (the content-hash key of the
`leafOnlyView` fixture) and missing every other key. -/
def storeContent : Store := fun k => if k == 8 then some ⟨[7]⟩ else none

/-- A store holding a payload under key 5 only (the node-hash key of the
`leafOnlyView` fixture). -/
def storeNodeKey : Store := fun k => if k == 5 then some ⟨[3]⟩ else none

/-- A trie whose root is a single leaf with node hash 5 and payload key 8,
over the content-keyed store. -/
def leafOnlyView : TrieView := ⟨.leaf 5 8, storeContent⟩

/-- The same root leaf over the node-hash-keyed store. -/
def leafNodeKeyView : TrieView := ⟨.leaf 5 8, storeNodeKey⟩

/-- A second 32-byte path, differing from path0 in its final bit. -/
def path1 : LPath := List.replicate 31 0 ++ [1]

/-- Concrete insertion list and a permutation of it, for the order-independence
witness. -/
def pairsA : List (LPath × Payload) := [(path0, ⟨[1]⟩), (path1, ⟨[2]⟩)]

/-- `pairsA` in the opposite order. -/
def pairsB : List (LPath × Payload) := [(path1, ⟨[2]⟩), (path0, ⟨[1]⟩)]

/-- The concrete heap produced by one Insert of (path0, [1]) into the empty
trie under the trivial hash model: the orphaned extension object, the leaf in
its child slot, and an unchanged nil root edge. -/
def insertedOnce : TrieState :=
  ⟨⟨[.ext 0 true path0 255 1, .leaf 0 0], [none, some 1]⟩, store0⟩

/- General list bookkeeping lemmas used by the trie proofs. -/

theorem getD_append_left {α : Type} (l l2 : List α) (n : Nat) (d : α) (h : n < l.length) :
    (l ++ l2).getD n d = l.getD n d :=
  List.getD_append l l2 d n h

theorem getD_append_length {α : Type} (l : List α) (x d : α) :
    (l ++ [x]).getD l.length d = x := by
  simp [List.getD_eq_getElem?_getD, List.getElem?_append_right]

theorem getD_set_ne {α : Type} (l : List α) (i j : Nat) (x d : α) (h : i ≠ j) :
    (l.set i x).getD j d = l.getD j d := by
  simp [List.getD_eq_getElem?_getD, List.getElem?_set_ne h]

theorem getD_set_self {α : Type} (l : List α) (i : Nat) (x d : α) (h : i < l.length) :
    (l.set i x).getD i d = x := by
  simp [List.getD_eq_getElem?_getD, List.getElem?_set_self, h]

theorem getD_map_lt {α β : Type} (f : α → β) (d : α) (e : β) :
    ∀ (ps : List α) (i : Nat), i < ps.length → (ps.map f).getD i e = f (ps.getD i d) := by
  intro ps
  induction ps with
  | nil => intro i hi; exact absurd hi (by simp)
  | cons q qs ih =>
    intro i hi
    cases i with
    | zero => rfl
    | succ j =>
      simp only [List.map_cons, List.getD_cons_succ]
      exact ih j (by simpa using hi)

/- Step lemmas for the Insert loop on symbolic heaps. -/

theorem insertLoop_nil_max (hm : HashModel) (p : LPath) (v : Payload) (fuel : Nat) (hp : Heap)
    (prev : Option Nat) (cur : Nat) (h : hp.slots.getD cur none = none) :
    insertLoop hm p v (fuel + 1) hp prev cur 255 =
      some ⟨hp.objs ++ [.leaf (hm.compactValue p v.value 256) (hm.blake3Sum v.value)],
            hp.slots.set cur (some hp.objs.length)⟩ := by
  rw [insertLoop, h]
  rfl

theorem insertLoop_nil_mid (hm : HashModel) (p : LPath) (v : Payload) (fuel : Nat) (hp : Heap)
    (prev : Option Nat) (cur depth : Nat) (h : hp.slots.getD cur none = none)
    (hd : (depth == 255) = false) :
    insertLoop hm p v (fuel + 1) hp prev cur depth =
      insertLoop hm p v fuel
        ⟨hp.objs ++ [.ext 0 true p ((255 - depth) % 256) hp.slots.length], hp.slots ++ [none]⟩
        (some cur) hp.slots.length 255 := by
  rw [insertLoop, h]
  simp [hd]

/-- One Insert into a trie whose root edge is nil: the loop allocates the
extension object without ever linking it into the root edge, then plants the
leaf in the orphaned extension's child slot, and the root edge stays nil. -/
theorem insertLoop_empty_root (hm : HashModel) (p : LPath) (v : Payload) (hp : Heap)
    (h0 : hp.slots.getD 0 none = none) :
    insertLoop hm p v insertFuel hp none 0 0 =
      some ⟨hp.objs ++ [.ext 0 true p 255 hp.slots.length,
                        .leaf (hm.compactValue p v.value 256) (hm.blake3Sum v.value)],
            hp.slots ++ [some (hp.objs.length + 1)]⟩ := by
  have e1 : insertFuel = 599 + 1 := rfl
  rw [e1, insertLoop_nil_mid hm p v 599 hp none 0 0 h0 (by decide)]
  have e2 : (599 : Nat) = 598 + 1 := rfl
  have h1 : (⟨hp.objs ++ [.ext 0 true p ((255 - 0) % 256) hp.slots.length],
              hp.slots ++ [none]⟩ : Heap).slots.getD hp.slots.length none = none := by
    exact getD_append_length hp.slots none none
  rw [e2, insertLoop_nil_max hm p v 598 _ (some 0) hp.slots.length h1]
  have hlen : (hp.objs ++ [Obj.ext 0 true p ((255 - 0) % 256) hp.slots.length]).length
      = hp.objs.length + 1 := by simp
  have hset : (hp.slots ++ [none]).set hp.slots.length (some (hp.objs.length + 1))
      = hp.slots ++ [some (hp.objs.length + 1)] := by
    rw [List.set_append_right _ _ (Nat.le_refl _)]
    simp
  simp only [hlen, Nat.sub_zero, Nat.zero_mod, show (255 : Nat) % 256 = 255 from rfl]
  rw [hset]
  simp

theorem insertT_empty_root (hm : HashModel) (t : TrieState) (p : LPath) (v : Payload)
    (h0 : t.heap.slots.getD 0 none = none) (hne : t.heap.slots.length ≠ 0) :
    ∃ t1, insertT hm t p v = some t1 ∧ t1.heap.slots.getD 0 none = none ∧
      t1.heap.slots.length ≠ 0 ∧ t1.store = t.store := by
  refine ⟨⟨⟨t.heap.objs ++ [.ext 0 true p 255 t.heap.slots.length,
            .leaf (hm.compactValue p v.value 256) (hm.blake3Sum v.value)],
           t.heap.slots ++ [some (t.heap.objs.length + 1)]⟩, t.store⟩, ?_, ?_, ?_, rfl⟩
  · unfold insertT
    rw [insertLoop_empty_root hm p v t.heap h0]
  · rw [getD_append_left _ _ 0 none (Nat.pos_of_ne_zero hne)]
    exact h0
  · simp

/-- Any sequence of Inserts starting from a nil root edge keeps the root edge
nil and the store untouched. -/
theorem insertAll_empty_root (hm : HashModel) (l : List (LPath × Payload)) :
    ∀ t : TrieState, t.heap.slots.getD 0 none = none → t.heap.slots.length ≠ 0 →
    ∃ t1, insertAll hm t l = some t1 ∧ t1.heap.slots.getD 0 none = none ∧
      t1.heap.slots.length ≠ 0 ∧ t1.store = t.store := by
  induction l with
  | nil => exact fun t h0 hne => ⟨t, rfl, h0, hne, rfl⟩
  | cons pv rest ih =>
    intro t h0 hne
    obtain ⟨t1, he, h1, hn1, hs1⟩ := insertT_empty_root hm t pv.1 pv.2 h0 hne
    obtain ⟨t2, he2, h2, hn2, hs2⟩ := ih t1 h1 hn1
    refine ⟨t2, ?_, h2, hn2, hs2.trans hs1⟩
    have hstep : insertAll hm t (pv :: rest)
        = match insertT hm t pv.1 pv.2 with
          | some t1 => insertAll hm t1 rest
          | none => none := rfl
    rw [hstep, he]
    exact he2

theorem trieRootHash_of_empty_root (hm : HashModel) (t : TrieState)
    (h0 : t.heap.slots.getD 0 none = none) :
    trieRootHash hm t = hm.defaultHash 256 := by
  unfold trieRootHash
  rw [h0]

/- Read-side lemmas. -/

/-- Whenever the read walk ends on a leaf, trie.go's read returns exactly the
store lookup keyed by that leaf's node hash. -/
theorem readT_eq_store_of_readLeafOf (store : Store) (p : LPath) :
    ∀ (n : NodeT) (depth : Nat) (x pk : Hash),
      readLeafOf p n depth = some (x, pk) → readT store p n depth = store x := by
  intro n
  induction n with
  | empty =>
    intro depth x pk hh
    simp [readLeafOf] at hh
  | leaf h1 pk1 =>
    intro depth x pk hh
    simp [readLeafOf] at hh
    simp [readT, hh.1]
  | ext h1 d npath count child ih =>
    intro depth x pk hh
    simp only [readLeafOf] at hh
    simp only [readT]
    split at hh
    · exact absurd hh (by simp)
    · rename_i hcond
      rw [if_neg (by exact hcond)]
      exact ih _ x pk hh
  | branch h1 d l r ihl ihr =>
    intro depth x pk hh
    simp only [readLeafOf] at hh
    simp only [readT]
    split at hh
    · rename_i hcond
      rw [if_pos (by exact hcond)]
      exact ihl _ x pk hh
    · rename_i hcond
      rw [if_neg (by exact hcond)]
      exact ihr _ x pk hh

/- Control-flow lemmas for run (main.go). -/

/-- Every run of flow-dps-live ends in one of exactly two results: the
early-return failure (exit 1, nothing launched, nothing stopped) or the full
run (exit 0, four components launched, four stop routines invoked in the
fixed source order). -/
theorem runLive_shape (cfg : RunConfig) (env : RunEnv) :
    runLive cfg env = failRes ∨ runLive cfg env =
      ⟨0, true, ["follower", "mapper", "api", "metrics"],
       ["api", "follower", "mapper", "metrics"]⟩ := by
  unfold runLive
  by_cases h0 : (!env.parseLevelOk) = true
  · rw [if_pos h0]
    exact Or.inl rfl
  rw [if_neg h0]
  by_cases h1 : (!env.openIndexOk) = true
  · rw [if_pos h1]
    exact Or.inl rfl
  rw [if_neg h1]
  by_cases h2 : (!env.openProtocolOk) = true
  · rw [if_pos h2]
    exact Or.inl rfl
  rw [if_neg h2]
  by_cases h3 : (env.first == FirstOutcome.failed) = true
  · rw [if_pos h3]
    exact Or.inl rfl
  rw [if_neg h3]
  by_cases h4 : ((env.first == FirstOutcome.keyNotFound) && (cfg.checkpoint == "")) = true
  · rw [if_pos h4]
    exact Or.inl rfl
  rw [if_neg h4]
  by_cases h5 : (!env.seedOk) = true
  · rw [if_pos h5]
    exact Or.inl rfl
  rw [if_neg h5]
  by_cases h6 : (!env.keyGenOk) = true
  · rw [if_pos h6]
    exact Or.inl rfl
  rw [if_neg h6]
  by_cases h7 : (!env.parseAddrOk) = true
  · rw [if_pos h7]
    exact Or.inl rfl
  rw [if_neg h7]
  by_cases h8 : (!env.parsePortOk) = true
  · rw [if_pos h8]
    exact Or.inl rfl
  rw [if_neg h8]
  by_cases h9 : (!env.decodeKeyOk) = true
  · rw [if_pos h9]
    exact Or.inl rfl
  rw [if_neg h9]
  by_cases h10 : (!env.newFollowerOk) = true
  · rw [if_pos h10]
    exact Or.inl rfl
  rw [if_neg h10]
  by_cases h11 : (!env.openSnapshotOk) = true
  · rw [if_pos h11]
    exact Or.inl rfl
  rw [if_neg h11]
  by_cases h12 : (!env.initProtocolOk) = true
  · rw [if_pos h12]
    exact Or.inl rfl
  rw [if_neg h12]
  by_cases h13 : (!env.catchupOk) = true
  · rw [if_pos h13]
    exact Or.inl rfl
  rw [if_neg h13]
  by_cases h14 : (!env.gcloudOk) = true
  · rw [if_pos h14]
    exact Or.inl rfl
  rw [if_neg h14]
  by_cases h15 : (!env.newExecutionOk) = true
  · rw [if_pos h15]
    exact Or.inl rfl
  rw [if_neg h15]
  by_cases h16 : (!env.newConsensusOk) = true
  · rw [if_pos h16]
    exact Or.inl rfl
  rw [if_neg h16]
  by_cases h17 : ((env.first == FirstOutcome.keyNotFound) && !env.openCheckpointOk) = true
  · rw [if_pos h17]
    exact Or.inl rfl
  rw [if_neg h17]
  by_cases h18 : ((env.first != FirstOutcome.keyNotFound) && (cfg.checkpoint != "") && !env.openCheckpointOk) = true
  · rw [if_pos h18]
    exact Or.inl rfl
  rw [if_neg h18]
  by_cases h19 : (!env.listenOk) = true
  · rw [if_pos h19]
    exact Or.inl rfl
  rw [if_neg h19]
  exact Or.inr rfl

theorem runLive_config_failure (cfg : RunConfig) (env : RunEnv)
    (h1 : env.first = .keyNotFound) (h2 : cfg.checkpoint = "") :
    (runLive cfg env).exit = 1 ∧ (runLive cfg env).indexingStarted = false := by
  unfold runLive
  simp_all [failRes]


/- Leaf-provenance lemmas for the Insert frame property. -/

theorem leafProvenance_refl (hm : HashModel) (p : LPath) (v : Payload) (A : List Obj) :
    leafProvenance hm p v A A :=
  ⟨Nat.le_refl _, fun j x pk hj hl => Or.inl ⟨hj, hl⟩⟩

theorem leafProvenance_trans (hm : HashModel) (p : LPath) (v : Payload) (A B C : List Obj)
    (h1 : leafProvenance hm p v A B) (h2 : leafProvenance hm p v B C) :
    leafProvenance hm p v A C := by
  refine ⟨Nat.le_trans h1.1 h2.1, fun j x pk hj hl => ?_⟩
  rcases h2.2 j x pk hj hl with ⟨hjB, hB⟩ | hg
  · exact h1.2 j x pk hjB hB
  · exact Or.inr hg

theorem leafProvenance_append_nonleaf (hm : HashModel) (p : LPath) (v : Payload)
    (A : List Obj) (o : Obj) (ho : ∀ x pk, o ≠ .leaf x pk) :
    leafProvenance hm p v A (A ++ [o]) := by
  refine ⟨by simp, fun j x pk hj hl => ?_⟩
  rcases Nat.lt_or_ge j A.length with hlt | hge
  · rw [getD_append_left _ _ _ _ hlt] at hl
    exact Or.inl ⟨hlt, hl⟩
  · have hj1 : j = A.length := by
      have : j < A.length + 1 := by simpa using hj
      omega
    subst hj1
    rw [getD_append_length] at hl
    exact absurd hl (ho x pk)

theorem leafProvenance_append_goodleaf (hm : HashModel) (p : LPath) (v : Payload)
    (A : List Obj) :
    leafProvenance hm p v A
      (A ++ [.leaf (hm.compactValue p v.value 256) (hm.blake3Sum v.value)]) := by
  refine ⟨by simp, fun j x pk hj hl => ?_⟩
  rcases Nat.lt_or_ge j A.length with hlt | hge
  · rw [getD_append_left _ _ _ _ hlt] at hl
    exact Or.inl ⟨hlt, hl⟩
  · have hj1 : j = A.length := by
      have : j < A.length + 1 := by simpa using hj
      omega
    subst hj1
    rw [getD_append_length] at hl
    cases hl
    exact Or.inr ⟨rfl, rfl⟩

theorem leafProvenance_set_nonleaf (hm : HashModel) (p : LPath) (v : Payload)
    (A : List Obj) (a : Nat) (o : Obj) (ho : ∀ x pk, o ≠ .leaf x pk) :
    leafProvenance hm p v A (A.set a o) := by
  refine ⟨by simp, fun j x pk hj hl => ?_⟩
  rcases eq_or_ne a j with heq | hne
  · subst heq
    rcases Nat.lt_or_ge a A.length with hlt | hge
    · rw [getD_set_self _ _ _ _ hlt] at hl
      exact absurd hl (ho x pk)
    · rw [List.set_eq_of_length_le hge] at hl
      exact Or.inl ⟨by simpa using hj, hl⟩
  · rw [getD_set_ne _ _ _ _ _ hne] at hl
    exact Or.inl ⟨by simpa using hj, hl⟩

theorem insertLoop_leafProvenance (hm : HashModel) (p : LPath) (v : Payload) :
    ∀ (fuel : Nat) (hp : Heap) (prev : Option Nat) (cur depth : Nat) (hp1 : Heap),
      insertLoop hm p v fuel hp prev cur depth = some hp1 →
      leafProvenance hm p v hp.objs hp1.objs := by
  intro fuel
  induction fuel with
  | zero =>
    intro hp prev cur depth hp1 h
    exact absurd h (by simp [insertLoop])
  | succ fuel ih =>
    intro hp prev cur depth hp1 h
    rw [insertLoop] at h
    cases hslot : hp.slots.getD cur none with
    | none =>
      rw [hslot] at h
      by_cases hd : (depth == 255) = true
      · rw [if_pos hd] at h
        cases h
        exact leafProvenance_append_goodleaf hm p v hp.objs
      · rw [if_neg hd] at h
        exact leafProvenance_trans hm p v _ _ _
          (leafProvenance_append_nonleaf hm p v hp.objs _ (by intro x pk hc; cases hc))
          (ih _ _ _ _ _ h)
    | some a =>
      simp only [hslot] at h
      cases hobj : hp.objs.getD a default with
      | leaf x pk =>
        simp only [hobj] at h
        exact ih ⟨hp.objs, hp.slots.set cur none⟩ prev cur depth hp1 h
      | branch x d l r =>
        simp only [hobj] at h
        have hnl : ∀ y pk, Obj.branch x true l r ≠ Obj.leaf y pk := by intro y pk hc; cases hc
        by_cases hb : (bitAt p depth == 0) = true
        · rw [if_pos hb] at h
          exact leafProvenance_trans hm p v _ _ _
            (leafProvenance_set_nonleaf hm p v hp.objs a _ hnl) (ih _ _ _ _ _ h)
        · rw [if_neg hb] at h
          exact leafProvenance_trans hm p v _ _ _
            (leafProvenance_set_nonleaf hm p v hp.objs a _ hnl) (ih _ _ _ _ _ h)
      | ext x d npath count child =>
        simp only [hobj] at h
        by_cases hc : (countCommon p npath depth ((depth + count) % 256) == npath.length % 256) = true
        · rw [if_pos hc] at h
          exact leafProvenance_trans hm p v _ _ _
            (leafProvenance_set_nonleaf hm p v hp.objs a _ (by intro y pk hcc; cases hcc))
            (ih _ _ _ _ _ h)
        · rw [if_neg hc] at h
          split at h
          next heq => exact absurd h (by simp)
          next h3 heq =>
            split at h
            all_goals
              refine leafProvenance_trans hm p v _ _ _ ?_ (ih _ (some cur) _ depth hp1 h)
            all_goals
              split at heq
            all_goals
              first
              | exact Option.noConfusion heq
              | (split at heq
                 · exact Option.noConfusion heq
                 · cases heq
                   split
                   · exact leafProvenance_append_nonleaf hm p v hp.objs _
                       (by intro y pk hcc; cases hcc)
                   · exact leafProvenance_trans hm p v _ _ _
                       (leafProvenance_append_nonleaf hm p v hp.objs _
                         (by intro y pk hcc; cases hcc))
                       (leafProvenance_append_nonleaf hm p v _ _
                         (by intro y pk hcc; cases hcc)))
              | (cases heq
                 split
                 · exact leafProvenance_trans hm p v _ _ _
                     (leafProvenance_append_nonleaf hm p v hp.objs _
                       (by intro y pk hcc; cases hcc))
                     (leafProvenance_set_nonleaf hm p v _ _ _
                       (by intro y pk hcc; cases hcc))
                 · exact leafProvenance_trans hm p v _ _ _
                     (leafProvenance_trans hm p v _ _ _
                       (leafProvenance_append_nonleaf hm p v hp.objs _
                         (by intro y pk hcc; cases hcc))
                       (leafProvenance_append_nonleaf hm p v _ _
                         (by intro y pk hcc; cases hcc)))
                     (leafProvenance_set_nonleaf hm p v _ _ _
                       (by intro y pk hcc; cases hcc)))


theorem runLive_started_exits_zero (cfg : RunConfig) (env : RunEnv)
    (h : (runLive cfg env).indexingStarted = true) : (runLive cfg env).exit = 0 := by
  rcases runLive_shape cfg env with he | he
  · rw [he] at h
    exact absurd h (by simp [failRes])
  · rw [he]

theorem engineStopFrom_eq_reverse_take (cs : List String) :
    ∀ n, n ≤ cs.length → engineStopFrom cs n = (cs.take n).reverse := by
  intro n
  induction n with
  | zero => intro _; rfl
  | succ m ih =>
    intro hle
    have hm : m < cs.length := Nat.lt_of_succ_le hle
    have : cs.take (m + 1) = cs.take m ++ [cs.getD m default] := by
      rw [List.take_succ]
      congr 1
      rw [List.getElem?_eq_getElem hm]
      simp [List.getD_eq_getElem?_getD, List.getElem?_eq_getElem hm]
    rw [engineStopFrom, ih (Nat.le_of_lt hm), this]
    simp

/-- Engine.Stop invokes the component stop functions in exactly the reverse of
the registration order. -/
theorem engineStopOrder_eq_reverse (cs : List String) :
    engineStopOrder cs = cs.reverse := by
  unfold engineStopOrder
  rw [engineStopFrom_eq_reverse_take cs cs.length (Nat.le_refl _), List.take_length]

/- Claim theorems. -/

set_option maxRecDepth 10000

/-- C1 (code bug): the claim says read(p) returns the payload of the last
Insert at p.  Evaluating the code: inserting (path0, [0x01]) into the empty
trie leaves the root edge nil — the nil case of Insert allocates the new
Extension but never assigns it to *current, so nothing is ever linked into
the trie — and read(path0) returns None instead of the inserted payload. -/
theorem trie_insert_then_read_returns_none :
    (insertT hm0 (emptyTrie store0) path0 ⟨[1]⟩).map (fun t => (t.heap, trieRead t path0))
      = some (insertedOnce.heap, none) := by
  decide

/-- C2 (code bug): at the fixture trie whose root Extension has count 255 over
path0, inserting path0 gives a common-bit count of 255, equal to the
extension's bit count; the claim requires a pure dirty-marking descent, but
the code compares `common` against `available = uint8(len(node.path))` = 32
(the byte length of the stored path), finds 255 ≠ 32, and forks the extension
into a Branch, rewiring its child edge. -/
theorem trie_extension_common_eq_count_still_forks :
    countCommon path0 path0 0 ((0 + 255) % 256) = 255 ∧
    (insertT hm0 extTrie path0 ⟨[9]⟩).map trieRoot =
      some (some (.ext 0 true path0 255
        (.branch 0 true (.ext 0 true path0 32 (.leaf 7 8)) .empty))) := by
  exact ⟨by decide, by decide⟩

/-- C3: inserting the same set of (path, payload) pairs in any two orders into
an empty trie yields equal root_hash() values.  This holds on the code — for
the degenerate reason that Insert never links anything into the root edge, so
every insertion sequence leaves the root nil and root_hash() is the canonical
height-256 default hash on both sides. -/
theorem trie_roothash_insertion_order_independent (hm : HashModel) (store : Store)
    (l1 l2 : List (LPath × Payload)) (hperm : l1.Perm l2) (hd : distinctPaths l1) :
    (insertAll hm (emptyTrie store) l1).map (trieRootHash hm)
      = (insertAll hm (emptyTrie store) l2).map (trieRootHash hm) := by
  obtain ⟨t1, he1, h01, -, -⟩ :=
    insertAll_empty_root hm l1 (emptyTrie store) rfl (by simp [emptyTrie])
  obtain ⟨t2, he2, h02, -, -⟩ :=
    insertAll_empty_root hm l2 (emptyTrie store) rfl (by simp [emptyTrie])
  rw [he1, he2]
  simp only [Option.map_some']
  rw [trieRootHash_of_empty_root hm t1 h01, trieRootHash_of_empty_root hm t2 h02]

/-- Witness for C3 at a concrete two-element insertion set and its swap. -/
theorem trie_roothash_insertion_order_independent_witness :
    pairsA.Perm pairsB ∧ distinctPaths pairsA ∧
    (insertAll hm0 (emptyTrie store0) pairsA).map (trieRootHash hm0)
      = (insertAll hm0 (emptyTrie store0) pairsB).map (trieRootHash hm0) :=
  ⟨by decide, by decide,
   trie_roothash_insertion_order_independent hm0 store0 pairsA pairsB
     (by decide) (by decide)⟩

/-- C4 (code bug): the claim says that after inserting and re-inserting at the
same path, read returns the new payload and Leaves() has exactly one entry.
Evaluating the code: both inserts leave the root edge nil, so read returns
None and Leaves() is empty. -/
theorem trie_reinsert_read_none_and_no_leaves :
    (insertAll hm0 (emptyTrie store0) [(path0, ⟨[1]⟩), (path0, ⟨[2]⟩)]).map
      (fun t => (trieRead t path0, (trieLeaves t).length)) = some (none, 0) := by
  decide

/-- C5 counterexample: the root is a Leaf with node hash 5 and payload key 8;
the store holds the payload under the content-hash key 8 — exactly where the
claim says read looks — and misses key 5.  The claim predicts read = some [7];
the code returns None, because read keys the store lookup by node.Hash(), not
by the leaf's payload key. -/
theorem trie_read_ignores_payload_key :
    readTrieV leafOnlyView path0 = none ∧
    leafOnlyView.store 8 = some ⟨[7]⟩ ∧
    readTrieV leafOnlyView path0 ≠ leafOnlyView.store 8 := by
  exact ⟨by decide, by decide, by decide⟩

/-- C5 (amended): when the read walk reaches a Leaf, the payload is fetched
from the Payload Store keyed by the leaf node's hash (its precomputed compact
hash) — not by the leaf's payload key — and read returns None exactly when
that lookup misses. -/
theorem trie_read_leaf_fetches_by_node_hash (t : TrieView) (p : LPath) (x pk : Hash)
    (h : readLeafOf p t.root 0 = some (x, pk)) :
    readTrieV t p = t.store x ∧ (readTrieV t p = none ↔ t.store x = none) := by
  have he : readTrieV t p = t.store x :=
    readT_eq_store_of_readLeafOf t.store p t.root 0 x pk h
  exact ⟨he, by rw [he]⟩

/-- Witness for C5's amended claim: a leaf-rooted trie whose store holds the
payload under the leaf's node hash; read returns it. -/
theorem trie_read_leaf_fetches_by_node_hash_witness :
    readLeafOf path0 leafNodeKeyView.root 0 = some (5, 8) ∧
    readTrieV leafNodeKeyView path0 = leafNodeKeyView.store 5 :=
  ⟨by decide,
   (trie_read_leaf_fetches_by_node_hash leafNodeKeyView path0 5 8 (by decide)).1⟩

/-- C6: for the empty trie, root_hash() is the canonical default hash for a
tree of height 256 and read returns None for every path; stated both for the
tree-level view and for the heap-level trie built by NewEmptyTrie. -/
theorem trie_empty_root_hash_default_and_read_none (hm : HashModel) (store : Store)
    (p : LPath) :
    rootHashT hm (emptyView store).root = hm.defaultHash 256 ∧
    readTrieV (emptyView store) p = none ∧
    trieRootHash hm (emptyTrie store) = hm.defaultHash 256 ∧
    trieRead (emptyTrie store) p = none :=
  ⟨rfl, rfl, rfl, rfl⟩

/-- C7: if the index database is empty (Reader.First reports ErrKeyNotFound)
and no checkpoint flag is supplied, run fails as a configuration error before
any component is launched: exit code 1 and the indexing FSM never started;
and whenever the run does launch its components, it returns exit code 0. -/
theorem run_missing_checkpoint_fails_before_indexing (cfg : RunConfig) (env : RunEnv)
    (h1 : env.first = .keyNotFound) (h2 : cfg.checkpoint = "") :
    ((runLive cfg env).exit = 1 ∧ (runLive cfg env).indexingStarted = false) ∧
    ∀ cfg2 env2, (runLive cfg2 env2).indexingStarted = true →
      (runLive cfg2 env2).exit = 0 :=
  ⟨runLive_config_failure cfg env h1 h2,
   fun cfg2 env2 h => runLive_started_exits_zero cfg2 env2 h⟩

/-- Witness for C7: concrete empty-index/no-checkpoint run fails with exit 1,
and a fully successful run exits 0. -/
theorem run_missing_checkpoint_fails_before_indexing_witness :
    ((runLive cfgNoCheckpoint envEmptyIndex).exit = 1 ∧
     (runLive cfgNoCheckpoint envEmptyIndex).indexingStarted = false) ∧
    (runLive cfgWithCheckpoint envAllOk).exit = 0 :=
  ⟨(run_missing_checkpoint_fails_before_indexing cfgNoCheckpoint envEmptyIndex rfl rfl).1,
   (run_missing_checkpoint_fails_before_indexing cfgNoCheckpoint envEmptyIndex rfl rfl).2
     cfgWithCheckpoint envAllOk (by decide)⟩

/-- C8 counterexample: in a successful run, the stop sequence is api (RPC
server), follower, mapper, metrics — the order the claim names — but this is
NOT the reverse of the registration/launch order follower, mapper, api,
metrics, so the claim's "reverse registration order" characterization is
false on the code. -/
theorem run_stop_order_not_reverse_of_registration :
    (runLive cfgWithCheckpoint envAllOk).stops
        ≠ ((runLive cfgWithCheckpoint envAllOk).launches).reverse ∧
    (runLive cfgWithCheckpoint envAllOk).stops = ["api", "follower", "mapper", "metrics"] ∧
    (runLive cfgWithCheckpoint envAllOk).launches = ["follower", "mapper", "api", "metrics"] := by
  exact ⟨by decide, by decide, by decide⟩

/-- C8 (amended): on shutdown the components are stopped in the fixed source
order RPC server, consensus follower, FSM mapper, metrics — which is not the
reverse of the order in which they were created and launched (follower,
mapper, RPC server, metrics) — and each component's stop routine is invoked
exactly once; the generic Engine.Stop helper of engine.go (not used by
flow-dps-live's run) does stop components in reverse registration order. -/
theorem run_stop_fixed_order_each_once (cfg : RunConfig) (env : RunEnv)
    (h : (runLive cfg env).indexingStarted = true) :
    (runLive cfg env).stops = ["api", "follower", "mapper", "metrics"] ∧
    (∀ c, c ∈ (runLive cfg env).stops → (runLive cfg env).stops.count c = 1) ∧
    (runLive cfg env).launches = ["follower", "mapper", "api", "metrics"] ∧
    (∀ cs : List String, engineStopOrder cs = cs.reverse) := by
  rcases runLive_shape cfg env with he | he
  · rw [he] at h
    exact absurd h (by simp [failRes])
  · rw [he]
    refine ⟨rfl, ?_, rfl, engineStopOrder_eq_reverse⟩
    intro c hc
    simp only [List.mem_cons, List.not_mem_nil, or_false] at hc
    rcases hc with rfl | rfl | rfl | rfl <;> decide

/-- Witness for C8's amended claim at a successful concrete run, together with
the Engine.Stop reverse order evaluated on the live launch list. -/
theorem run_stop_fixed_order_each_once_witness :
    (runLive cfgWithCheckpoint envAllOk).stops = ["api", "follower", "mapper", "metrics"] ∧
    engineStopOrder ["follower", "mapper", "api", "metrics"]
      = ["metrics", "api", "mapper", "follower"] :=
  ⟨(run_stop_fixed_order_each_once cfgWithCheckpoint envAllOk (by decide)).1,
   ((run_stop_fixed_order_each_once cfgWithCheckpoint envAllOk (by decide)).2.2.2
      ["follower", "mapper", "api", "metrics"]).trans (by decide)⟩

/-- C9: Insert never writes to the payload store — the store of the resulting
trie is the very store of the input trie — and the only leaf objects it adds
to the heap carry exactly the compact hash of (path, payload, 256) and the
blake3 content hash of the payload bytes. -/
theorem trie_insert_preserves_store (hm : HashModel) (t : TrieState) (p : LPath)
    (v : Payload) (t1 : TrieState) (h : insertT hm t p v = some t1) :
    t1.store = t.store ∧ leafProvenance hm p v t.heap.objs t1.heap.objs := by
  unfold insertT at h
  cases he : insertLoop hm p v insertFuel t.heap none 0 0 with
  | none =>
    rw [he] at h
    exact absurd h (by simp)
  | some hp1 =>
    rw [he] at h
    simp only [] at h
    cases h
    exact ⟨rfl, insertLoop_leafProvenance hm p v insertFuel t.heap none 0 0 hp1 he⟩

/-- Witness for C9: the concrete insert into the empty trie succeeds and keeps
the store. -/
theorem trie_insert_preserves_store_witness :
    insertT hm0 (emptyTrie store0) path0 ⟨[1]⟩ = some insertedOnce ∧
    insertedOnce.store = (emptyTrie store0).store :=
  ⟨rfl,
   (trie_insert_preserves_store hm0 (emptyTrie store0) path0 ⟨[1]⟩ insertedOnce rfl).1⟩

/-- C10: UnsafeRead returns exactly one entry per input path (the output
length equals the input length), it is a total function — in particular it
does not panic on paths absent from the trie, despite the doc comment on
UnsafeRead — each entry is the read of the corresponding path, and the entry
is nil whenever that path does not resolve to a stored payload. -/
theorem trie_unsafe_read_total_pointwise (t : TrieView) (ps : List LPath) :
    (unsafeReadV t ps).length = ps.length ∧
    (∀ i, i < ps.length →
      (unsafeReadV t ps).getD i none = readTrieV t (ps.getD i [])) ∧
    (∀ i, i < ps.length → readTrieV t (ps.getD i []) = none →
      (unsafeReadV t ps).getD i none = none) := by
  refine ⟨by simp [unsafeReadV], ?_, ?_⟩
  · intro i hi
    exact getD_map_lt (readTrieV t) [] none ps i hi
  · intro i hi hn
    have he : (unsafeReadV t ps).getD i none = readTrieV t (ps.getD i []) :=
      getD_map_lt (readTrieV t) [] none ps i hi
    rw [he, hn]

/-- Witness for C10 on the empty trie and a one-path query: one entry, and it
is nil for the absent path. -/
theorem trie_unsafe_read_total_pointwise_witness :
    (unsafeReadV (emptyView store0) [path0]).length = 1 ∧
    (unsafeReadV (emptyView store0) [path0]).getD 0 none = none :=
  ⟨(trie_unsafe_read_total_pointwise (emptyView store0) [path0]).1,
   (trie_unsafe_read_total_pointwise (emptyView store0) [path0]).2.2 0 (by decide)
     (by decide)⟩
